import Mathlib

/-!
Shallow embedding of the version-resolution engine of the Atlassian Marketplace
compatibility scraper (src/utils/scraper.js) together with the batch entry point
(checkCompatibility) and the route-level guards of the server file.

Modelling conventions:
* JS values that may be null/undefined or a string are modelled as Option String;
  JS truthiness of such a value is the predicate truthy below (none and "" are falsy).
* JS number semantics for parseInt on a decimal digit run are modelled as exact
  naturals (double-precision rounding of astronomically long digit runs is abstracted).
* JS String.prototype.trim / toLowerCase / split / the scraper's regexes are modelled
  over the character list of the string; character comparisons use code points
  (JS compares UTF-16 code units, which agrees on the Basic Multilingual Plane).
* Array.prototype.sort with a comparator is stable (ES2019); it is modelled by
  Mathlib's List.insertionSort, which is stable.
* Network and browser IO cannot be embedded; each data-source client is therefore
  represented by the outcome it would produce (an error message or a list of raw
  records), and the orchestrator / batch runner are pure functions of those outcomes.
-/

namespace Scraper

/-- JS truthiness of a nullable string: null/undefined and the empty string are falsy. -/
def truthy : Option String → Bool
  | none => false
  | some s => !(s = "")

/-- Whitespace trimming of a character list, modelling String.prototype.trim. -/
def trimChars (cs : List Char) : List Char :=
  ((cs.dropWhile Char.isWhitespace).reverse.dropWhile Char.isWhitespace).reverse

/-- String.prototype.trim on the model. -/
def jsTrim (s : String) : String := String.mk (trimChars s.data)

/-- One dot-delimited piece of a version string, split into its leading numeric run
and trailing alphabetic remainder (the data model's VersionSegment). -/
structure Segment where
  num : Nat
  alpha : String
  deriving DecidableEq, Repr

/-- The zero segment used to right-pad the shorter version during comparison. -/
def padSeg : Segment := ⟨0, ""⟩

/-- Value of a decimal digit run (parseInt(run, 10); empty run yields 0, matching
the source's m[1].length guard). -/
def digitsToNat (cs : List Char) : Nat :=
  cs.foldl (fun acc c => acc * 10 + (c.toNat - 48)) 0

/-- parseSegment from src/utils/scraper.js: trim, lower-case, split the segment by
the anchored regex into its leading digit run (group 1) and the remainder (group 2). -/
def parseSegment (seg : String) : Segment :=
  let s := (trimChars seg.data).map Char.toLower
  { num := digitsToNat (s.takeWhile Char.isDigit)
    alpha := String.mk (s.dropWhile Char.isDigit) }

/-- compareSegments from src/utils/scraper.js: numeric parts first; at equal numerics
the empty alphabetic remainder sorts before any non-empty one, and non-empty
remainders compare lexicographically (JS string comparison). -/
def compareSegments (sa sb : Segment) : Int :=
  if sa.num ≠ sb.num then (if sa.num < sb.num then -1 else 1)
  else if sa.alpha = sb.alpha then 0
  else if sa.alpha = "" then -1
  else if sb.alpha = "" then 1
  else if sa.alpha < sb.alpha then -1 else 1

/-- Split a character list at every occurrence of a separator character, modelling
String.prototype.split with a single-character separator. -/
def splitOnChar (sep : Char) : List Char → List (List Char)
  | [] => [[]]
  | c :: cs =>
    let rest := splitOnChar sep cs
    if c = sep then [] :: rest else (c :: rest.headD []) :: rest.tail

/-- parseVersion from src/utils/scraper.js: a falsy version string parses to the single
zero segment; otherwise trim, split on dots and parse each segment. -/
def parseVersion (vstr : String) : List Segment :=
  if vstr = "" then [padSeg]
  else (splitOnChar '.' (trimChars vstr.data)).map (fun cs => parseSegment (String.mk cs))

/-- Remainder of the comparison loop once the left operand is exhausted: the left side
is padded with the zero segment against each remaining right segment. -/
def compareTailRight : List Segment → Int
  | [] => 0
  | b :: bs =>
    let c := compareSegments padSeg b
    if c ≠ 0 then c else compareTailRight bs

/-- Remainder of the comparison loop once the right operand is exhausted. -/
def compareTailLeft : List Segment → Int
  | [] => 0
  | a :: as =>
    let c := compareSegments a padSeg
    if c ≠ 0 then c else compareTailLeft as

/-- The comparison loop of compareVersions: pairwise segment comparison, right-padding
the shorter list with the zero segment, first non-zero result wins. -/
def compareSegLists : List Segment → List Segment → Int
  | [], bs => compareTailRight bs
  | a :: as, [] =>
    let c := compareSegments a padSeg
    if c ≠ 0 then c else compareTailLeft as
  | a :: as, b :: bs =>
    let c := compareSegments a b
    if c ≠ 0 then c else compareSegLists as bs

/-- compareVersions from src/utils/scraper.js. -/
def compareVersions (a b : String) : Int :=
  compareSegLists (parseVersion a) (parseVersion b)

/-- isVersionInRange from src/utils/scraper.js: false when any input is falsy, else
min ≤ target ≤ max under the comparator. -/
def isVersionInRange (target minVer maxVer : Option String) : Bool :=
  if !truthy target || !truthy minVer || !truthy maxVer then false
  else decide (compareVersions (target.getD "") (minVer.getD "") ≥ 0) &&
       decide (compareVersions (target.getD "") (maxVer.getD "") ≤ 0)

/-! VERSION_TOKEN_RE scanner.  The regex
[0-9][0-9a-zA-Z]*(?:\.[0-9a-zA-Z]+)+|[a-zA-Z][0-9a-zA-Z]*(?:\.[0-9a-zA-Z]+)+  with the
global flag matches, left to right and non-overlapping, maximal runs of the shape
alnum+ (\. alnum+)+ (the two alternatives differ only in the first character and their
union is exactly an alphanumeric-led run).  A failed attempt at a position advances the
scan by one character.  The scanners below use an explicit fuel argument, always called
with fuel at least the remaining length, so that they are structurally recursive. -/

/-- Greedy consumption of the (?:\.[0-9a-zA-Z]+)+ part: returns the consumed characters
and the rest of the input.  Zero groups consumed means the token attempt failed. -/
def takeDotGroups : Nat → List Char → List Char × List Char
  | fuel + 1, '.' :: rest =>
    let run := rest.takeWhile Char.isAlphanum
    if run = [] then ([], '.' :: rest)
    else
      let p := takeDotGroups fuel (rest.dropWhile Char.isAlphanum)
      ('.' :: (run ++ p.1), p.2)
  | _, cs => ([], cs)

/-- One pass of the global regex scan: on an alphanumeric character try to match a full
token (alnum run followed by at least one dot group); on success continue after the
match, on failure advance one character. -/
def scanVersionTokens : Nat → List Char → List String
  | 0, _ => []
  | _ + 1, [] => []
  | fuel + 1, c :: cs =>
    if c.isAlphanum then
      let run := c :: cs.takeWhile Char.isAlphanum
      let rest := cs.dropWhile Char.isAlphanum
      let p := takeDotGroups rest.length rest
      if p.1 = [] then scanVersionTokens fuel cs
      else String.mk (run ++ p.1) :: scanVersionTokens fuel p.2
    else scanVersionTokens fuel cs

/-- extractVersionTokens from src/utils/scraper.js: all matches of VERSION_TOKEN_RE,
filtered (redundantly, since every match contains a dot) to tokens containing a dot. -/
def extractVersionTokens (text : String) : List String :=
  if text = "" then []
  else (scanVersionTokens text.data.length text.data).filter (fun t => t.data.contains '.')

/-- The record returned by parseCompatibilityString. -/
structure ParsedRange where
  minVersion : Option String
  maxVersion : Option String
  rawText : String
  deriving DecidableEq, Repr

/-- parseCompatibilityString from src/utils/scraper.js: zero tokens give a null pair, one
token is both min and max, otherwise first and last token with a safety swap when they
compare out of order. -/
def parseCompatibilityString (text : String) : ParsedRange :=
  let rawText := jsTrim text
  if rawText = "" then ⟨none, none, rawText⟩
  else
    match extractVersionTokens rawText with
    | [] => ⟨none, none, rawText⟩
    | [t] => ⟨some t, some t, rawText⟩
    | t :: u :: rest =>
      let mn := t
      let mx := (u :: rest).getLast (List.cons_ne_nil u rest)
      if compareVersions mn mx > 0 then ⟨some mx, some mn, rawText⟩
      else ⟨some mn, some mx, rawText⟩

/-! URL helpers. -/

/-- Boolean list prefix test (used to search for a substring). -/
def isPrefixOfB : List Char → List Char → Bool
  | [], _ => true
  | _ :: _, [] => false
  | p :: ps, c :: cs => p = c && isPrefixOfB ps cs

/-- Boolean list substring test. -/
def isInfixOfB (pat : List Char) : List Char → Bool
  | [] => isPrefixOfB pat []
  | c :: cs => isPrefixOfB pat (c :: cs) || isInfixOfB pat cs

/-- JS String.prototype.includes on the model. -/
def strIncludes (s pat : String) : Bool := isInfixOfB pat.data s.data

/-- JS split of a string at the first question mark, keeping the part before it:
rawUrl.split(QUESTION)[0] in normalizeVersionHistoryUrl. -/
def beforeQuery (s : String) : String := String.mk (s.data.takeWhile (fun c => c ≠ '?'))

/-- One trailing slash removed if present: rawUrl.replace of the trailing-slash regex. -/
def dropTrailingSlash (s : String) : String :=
  if s.data.getLast? = some '/' then String.mk s.data.dropLast else s

/-- normalizeVersionHistoryUrl from src/utils/scraper.js: when the URL already contains
the version-history segment, keep only the part before any query string; otherwise strip
one trailing slash and append the segment (the query string, if any, is left in place);
in both cases append the stable hosting query parameter. -/
def normalizeVersionHistoryUrl (rawUrl : String) : String :=
  let r := jsTrim rawUrl
  let base := if strIncludes r "/version-history"
    then beforeQuery r
    else dropTrailingSlash r ++ "/version-history"
  base ++ "?versionHistoryHosting=dataCenter"

/-- The id/slug pair resolved from a marketplace URL. -/
structure Identifiers where
  id : Option String
  slug : Option String
  deriving DecidableEq, Repr

/-- The all-digit validation of the candidate id (regex anchored digit-plus test). -/
def isAllDigits (s : String) : Bool := !(s = "") && s.data.all Char.isDigit

/-- Index of the first occurrence of a string in a list (Array.prototype.indexOf,
with the not-found result modelled as none instead of -1). -/
def jsIndexOf (x : String) : List String → Option Nat
  | [] => none
  | y :: ys => if y = x then some 0 else (jsIndexOf x ys).map (· + 1)

/-- extractAddonIdentifiers from src/utils/scraper.js.  The WHATWG URL parser that the
source applies first (new URL(u).pathname, with parse failures caught) is outside the
model, so the function takes the resulting pathname, none standing for a parse failure.
The pathname is split on slashes, empty parts are dropped, and the two parts after the
first "apps" part are the candidate id (kept only if all digits) and slug (kept only
alongside a valid id and when not a known non-slug path keyword). -/
def addonIdentifiersFromParts (parts : List String) : Identifiers :=
  match jsIndexOf "apps" parts with
  | none => ⟨none, none⟩
  | some appsIdx =>
    match parts.get? (appsIdx + 1) with
    | none => ⟨none, none⟩
    | some id =>
      if isAllDigits id then
        { id := some id
          slug :=
            match parts.get? (appsIdx + 2) with
            | none => none
            | some s =>
              if !(s = "") && !(s = "version-history") && !(s = "overview") then some s
              else none }
      else ⟨none, none⟩

def extractAddonIdentifiers (pathname : Option String) : Identifiers :=
  match pathname with
  | none => ⟨none, none⟩
  | some p =>
    addonIdentifiersFromParts
      (((splitOnChar '/' p.data).map String.mk).filter (fun s => !(s = "")))

/-! Result construction (buildResult) and the acquisition orchestrator. -/

/-- A plugin descriptor as consumed by the engine. -/
structure PluginDescriptor where
  name : String
  marketplaceUrl : String
  currentVersion : String
  deriving DecidableEq, Repr

/-- A raw version record as produced by any of the three data-source clients.  Fields
that a client may leave absent are options. -/
structure RawVersionRecord where
  version : String
  compatibility : Option String
  releaseDate : Option String
  releaseSummary : Option String
  minVersion : Option String
  maxVersion : Option String
  deriving DecidableEq, Repr

/-- An entry of the compatibleVersions list of a plugin result. -/
structure CompatibleVersionEntry where
  pluginVersion : String
  compatibilityRange : String
  compatibility : String
  releaseDate : String
  releaseSummary : String
  deriving DecidableEq, Repr

/-- The per-plugin report.  Fields that the failure result object of checkCompatibility
does not set at all are options, none standing for the absent key. -/
structure PluginResult where
  pluginName : String
  pluginUrl : String
  currentVersion : String
  targetDCVersion : String
  fetchMethod : String
  compatible : Option Bool
  compatibleVersions : List CompatibleVersionEntry
  compatibleVersionRange : Option String
  recommendedVersion : Option String
  totalVersionsChecked : Option Nat
  allVersions : Option (List RawVersionRecord)
  parseWarnings : Option (List String)
  error : Option String
  deriving DecidableEq, Repr

/-- Bound resolution in buildResult's loop: when either bound of the record is falsy,
both are re-derived by parsing the record's compatibility text. -/
def resolveBounds (v : RawVersionRecord) : Option String × Option String :=
  if !truthy v.minVersion || !truthy v.maxVersion then
    let parsed := parseCompatibilityString (v.compatibility.getD "")
    (parsed.minVersion, parsed.maxVersion)
  else (v.minVersion, v.maxVersion)

/-- The compatibleVersions entry pushed for a kept record (mn and mx are the resolved,
truthy bounds). -/
def toEntry (v : RawVersionRecord) (mn mx : String) : CompatibleVersionEntry :=
  { pluginVersion := v.version
    compatibilityRange := mn ++ " - " ++ mx
    compatibility :=
      match v.compatibility with
      | some s => if !(s = "") then s else mn ++ " - " ++ mx
      | none => mn ++ " - " ++ mx
    releaseDate := v.releaseDate.getD ""
    releaseSummary := v.releaseSummary.getD "" }

/-- The filtering loop of buildResult: skip records with unresolved bounds, keep those
whose resolved range straddles the target. -/
def collectCompatible (targetDCVersion : String) : List RawVersionRecord → List CompatibleVersionEntry
  | [] => []
  | v :: vs =>
    let mn := (resolveBounds v).1
    let mx := (resolveBounds v).2
    if !truthy mn || !truthy mx then collectCompatible targetDCVersion vs
    else if isVersionInRange (some targetDCVersion) mn mx then
      toEntry v (mn.getD "") (mx.getD "") :: collectCompatible targetDCVersion vs
    else collectCompatible targetDCVersion vs

/-- The descending sort relation used for recommendedVersion: the JS comparator
(a, b) compareVersions(b.pluginVersion, a.pluginVersion).  Array.prototype.sort is
stable, and insertion sort with this relation models it. -/
def descR (a b : CompatibleVersionEntry) : Prop :=
  compareVersions b.pluginVersion a.pluginVersion ≤ 0

/-- The ascending sort relation used for compatibleVersionRange. -/
def ascR (a b : CompatibleVersionEntry) : Prop :=
  compareVersions a.pluginVersion b.pluginVersion ≤ 0

instance : DecidableRel descR := fun a b =>
  inferInstanceAs (Decidable (compareVersions b.pluginVersion a.pluginVersion ≤ 0))

instance : DecidableRel ascR := fun a b =>
  inferInstanceAs (Decidable (compareVersions a.pluginVersion b.pluginVersion ≤ 0))

/-- buildResult from src/utils/scraper.js.  Note that the source sorts the
compatibleVersions array in place while computing recommendedVersion, so the list in the
returned result is descending-sorted; the range is computed from an ascending-sorted
copy of that list, and the current-version check happens before the sort. -/
def buildResult (plugin : PluginDescriptor) (rawVersions : List RawVersionRecord)
    (targetDCVersion : String) (fetchMethod : String) : PluginResult :=
  let compatibleVersions := collectCompatible targetDCVersion rawVersions
  let isCurrentVersionCompatible :=
    compatibleVersions.any (fun cv => compareVersions cv.pluginVersion plugin.currentVersion == 0)
  let sortedDesc := List.insertionSort descR compatibleVersions
  let recommendedVersion :=
    match sortedDesc.head? with
    | some cv => some cv.pluginVersion
    | none => none
  let sortedAsc := List.insertionSort ascR sortedDesc
  let compatibleVersionRange :=
    match sortedAsc.head?, sortedAsc.getLast? with
    | some h, some l =>
      some (if h.pluginVersion = l.pluginVersion then h.pluginVersion
            else h.pluginVersion ++ " - " ++ l.pluginVersion)
    | _, _ => none
  { pluginName := plugin.name
    pluginUrl := plugin.marketplaceUrl
    currentVersion := plugin.currentVersion
    targetDCVersion := targetDCVersion
    fetchMethod := fetchMethod
    compatible := some isCurrentVersionCompatible
    compatibleVersions := sortedDesc
    compatibleVersionRange := compatibleVersionRange
    recommendedVersion := recommendedVersion
    totalVersionsChecked := some rawVersions.length
    allVersions := some rawVersions
    parseWarnings := some []
    error := none }

/-- The three acquisition methods, in priority order. -/
inductive FetchMethod
  | initialState
  | restApi
  | puppeteer
  deriving DecidableEq, Repr

/-- The tag the orchestrator reports for each method. -/
def methodName : FetchMethod → String
  | .initialState => "initial-state"
  | .restApi => "rest-api"
  | .puppeteer => "puppeteer"

/-- A successful acquisition: the records found and the method that found them. -/
structure FetchSuccess where
  versions : List RawVersionRecord
  method : FetchMethod
  deriving DecidableEq, Repr

/-- Each client rejects an empty extraction before resolving (fetchFromInitialState,
fetchFromAPI and fetchFromPuppeteer all throw when their record list is empty), so a
client outcome is an error or a nonempty record list.  extracted is what the client
pulled out of its data source (the IO part, outside the model). -/
def clientOutcome (emptyMsg : String) (extracted : Except String (List RawVersionRecord)) :
    Except String (List RawVersionRecord) :=
  match extracted with
  | .error e => .error e
  | .ok vs => if vs.isEmpty then .error emptyMsg else .ok vs

/-- The combined error thrown when every attempted method failed. -/
def combineErrors (errors : List String) : String :=
  "All methods failed:\n • " ++ String.intercalate "\n • " errors

/-- fetchAllVersions from src/utils/scraper.js, with the IO of the three clients
abstracted as their outcomes m1, m2, m3.  Returns the orchestrator result together with
the list of methods actually attempted, in attempt order: initial-state first, then the
REST API (only when an id or slug was resolved), then the browser; the first success
returns immediately and failures are collected with a method tag. -/
def fetchAllVersions (identifiers : Identifiers)
    (m1 m2 m3 : Except String (List RawVersionRecord)) :
    Except String FetchSuccess × List FetchMethod :=
  match m1 with
  | .ok versions => (.ok ⟨versions, .initialState⟩, [.initialState])
  | .error e1 =>
    if truthy identifiers.id || truthy identifiers.slug then
      match m2 with
      | .ok versions => (.ok ⟨versions, .restApi⟩, [.initialState, .restApi])
      | .error e2 =>
        match m3 with
        | .ok versions =>
          (.ok ⟨versions, .puppeteer⟩, [.initialState, .restApi, .puppeteer])
        | .error e3 =>
          (.error (combineErrors
              ["initial-state: " ++ e1, "rest-api: " ++ e2, "puppeteer: " ++ e3]),
           [.initialState, .restApi, .puppeteer])
    else
      match m3 with
      | .ok versions => (.ok ⟨versions, .puppeteer⟩, [.initialState, .puppeteer])
      | .error e3 =>
        (.error (combineErrors ["initial-state: " ++ e1, "puppeteer: " ++ e3]),
         [.initialState, .puppeteer])

/-! The batch runner (checkCompatibility) and the route-level guards. -/

/-- Externally observable browser lifecycle and per-plugin processing steps of one
checkCompatibility invocation. -/
inductive BatchEvent
  | launchBrowser
  | processPlugin (index : Nat)
  | closeBrowser
  deriving DecidableEq, Repr

/-- The degraded result object built in checkCompatibility's catch branch when a
plugin exhausted every tier. -/
def failureResult (plugin : PluginDescriptor) (targetDCVersion : String) (msg : String) :
    PluginResult :=
  { pluginName := plugin.name
    pluginUrl := plugin.marketplaceUrl
    currentVersion := plugin.currentVersion
    targetDCVersion := targetDCVersion
    fetchMethod := "failed"
    compatible := none
    compatibleVersions := []
    compatibleVersionRange := none
    recommendedVersion := none
    totalVersionsChecked := none
    allVersions := none
    parseWarnings := none
    error := some msg }

/-- The per-plugin step of the batch loop: acquisition then result construction, with a
total acquisition failure converted into the degraded result. -/
def processOnePlugin (targetDCVersion : String)
    (fetch : PluginDescriptor → Except String FetchSuccess) (p : PluginDescriptor) :
    PluginResult :=
  match fetch p with
  | .ok fr => buildResult p fr.versions targetDCVersion (methodName fr.method)
  | .error e => failureResult p targetDCVersion e

/-- The sequential plugin loop of checkCompatibility. -/
def processPlugins (targetDCVersion : String)
    (fetch : PluginDescriptor → Except String FetchSuccess) :
    List PluginDescriptor → List PluginResult
  | [] => []
  | p :: ps =>
    processOnePlugin targetDCVersion fetch p :: processPlugins targetDCVersion fetch ps

/-- checkCompatibility from src/utils/scraper.js, with the per-plugin acquisition
(the network and browser IO of fetchAllVersions) abstracted as fetch.  The function
performs no input validation: the browser is launched unconditionally before the loop,
every plugin is processed in input order, and the browser is closed at the end.  The
second component records the observable browser lifecycle. -/
def checkCompatibility (plugins : List PluginDescriptor) (targetDCVersion : String)
    (fetch : PluginDescriptor → Except String FetchSuccess) :
    List PluginResult × List BatchEvent :=
  (processPlugins targetDCVersion fetch plugins,
   BatchEvent.launchBrowser ::
     ((List.range plugins.length).map BatchEvent.processPlugin ++ [BatchEvent.closeBrowser]))

/-- The compatibility-check route of the server file (the Express handler around
checkCompatibility): a missing product type or target version is rejected up front, and
an empty plugin list is rejected before checkCompatibility is ever invoked. -/
def checkCompatibilityRoute (ptype targetDCVersion : String)
    (plugins : List PluginDescriptor)
    (fetch : PluginDescriptor → Except String FetchSuccess) :
    Except String (List PluginResult × List BatchEvent) :=
  if ptype = "" || targetDCVersion = "" then
    .error "type and targetDCVersion are required."
  else if plugins.length = 0 then
    .error "No plugins found for this product type."
  else
    .ok (checkCompatibility plugins targetDCVersion fetch)

/-! Order-theoretic facts about the comparator (helpers shared by the claims). -/

theorem empty_string_lt {y : String} (h : y ≠ "") : ("" : String) < y := by
  rw [String.lt_iff_toList_lt]
  rcases y with ⟨l⟩
  cases l with
  | nil => exact absurd rfl h
  | cons c cs => exact List.nil_lt_cons c cs

theorem not_lt_empty_string (x : String) : ¬x < "" := by
  intro h
  by_cases hx : x = ""
  · exact absurd (hx ▸ h) (lt_irrefl _)
  · exact absurd (lt_trans h (empty_string_lt hx)) (lt_irrefl _)

theorem compareSegments_refl (s : Segment) : compareSegments s s = 0 := by
  simp [compareSegments]

theorem compareSegments_eq_zero_iff {s t : Segment} : compareSegments s t = 0 ↔ s = t := by
  unfold compareSegments
  split_ifs with h1 h2 h3 h4 h5 h6 <;>
    constructor <;> intro h <;>
    first
      | rfl
      | (cases s; cases t; simp_all)

theorem compareSegments_eq_neg_one_iff {s t : Segment} :
    compareSegments s t = -1 ↔ s.num < t.num ∨ (s.num = t.num ∧ s.alpha < t.alpha) := by
  unfold compareSegments
  split_ifs with h1 h2 h3 h4 h5 h6
  · simp [h2]
  · constructor
    · intro h
      exact absurd h (by decide)
    · intro h
      rcases h with h | ⟨h, _⟩ <;> omega
  · constructor
    · intro h
      exact absurd h (by decide)
    · intro h
      rcases h with h | ⟨_, h⟩
      · omega
      · exact absurd (h3 ▸ h) (lt_irrefl _)
  · constructor
    · intro _
      right
      refine ⟨by omega, ?_⟩
      rw [h4]
      exact empty_string_lt (fun he => h3 (h4.trans he.symm))
    · intro _
      rfl
  · constructor
    · intro h
      exact absurd h (by decide)
    · intro h
      rcases h with h | ⟨_, h⟩
      · omega
      · exact absurd (h5 ▸ h) (not_lt_empty_string _)
  · constructor
    · intro _
      right
      exact ⟨by omega, h6⟩
    · intro _
      rfl
  · constructor
    · intro h
      exact absurd h (by decide)
    · intro h
      rcases h with h | ⟨_, h⟩
      · omega
      · exact absurd h h6

theorem compareSegments_mem_range (s t : Segment) :
    compareSegments s t = -1 ∨ compareSegments s t = 0 ∨ compareSegments s t = 1 := by
  unfold compareSegments
  split_ifs <;> simp

/-- The strict segment order that compareSegments decides: lexicographic on the numeric
part, then on the alphabetic remainder. -/
def segLT (s t : Segment) : Prop :=
  s.num < t.num ∨ (s.num = t.num ∧ s.alpha < t.alpha)

theorem segLT_asymm {s t : Segment} (h : segLT s t) : ¬segLT t s := by
  intro h'
  rcases h with h | ⟨h1, h2⟩ <;> rcases h' with h' | ⟨h1', h2'⟩
  · omega
  · omega
  · omega
  · exact absurd (lt_trans h2 h2') (lt_irrefl _)

theorem segLT_trans {s t u : Segment} (h : segLT s t) (h' : segLT t u) : segLT s u := by
  rcases h with h | ⟨h1, h2⟩ <;> rcases h' with h' | ⟨h1', h2'⟩
  · left; omega
  · left; omega
  · left; omega
  · right; exact ⟨h1.trans h1', lt_trans h2 h2'⟩

theorem segLT_trichotomy (s t : Segment) : segLT s t ∨ s = t ∨ segLT t s := by
  rcases Nat.lt_trichotomy s.num t.num with h | h | h
  · left; left; exact h
  · rcases lt_trichotomy s.alpha t.alpha with h' | h' | h'
    · left; right; exact ⟨h, h'⟩
    · right; left
      cases s; cases t
      simp_all
    · right; right; right; exact ⟨h.symm, h'⟩
  · right; right; left; exact h

theorem compareSegments_eq_neg_one_iff' {s t : Segment} :
    compareSegments s t = -1 ↔ segLT s t :=
  compareSegments_eq_neg_one_iff

theorem compareSegments_eq_one_iff {s t : Segment} :
    compareSegments s t = 1 ↔ segLT t s := by
  constructor
  · intro h
    rcases segLT_trichotomy s t with h' | h' | h'
    · rw [← compareSegments_eq_neg_one_iff'] at h'
      omega
    · subst h'
      rw [compareSegments_refl] at h
      omega
    · exact h'
  · intro h
    have h1 : compareSegments s t ≠ -1 :=
      fun hc => segLT_asymm h (compareSegments_eq_neg_one_iff'.mp hc)
    have h2 : compareSegments s t ≠ 0 := by
      intro hc
      have he := compareSegments_eq_zero_iff.mp hc
      subst he
      exact segLT_asymm h h
    rcases compareSegments_mem_range s t with h' | h' | h'
    · exact absurd h' h1
    · exact absurd h' h2
    · exact h'

theorem compareSegments_swap (s t : Segment) : compareSegments s t = -compareSegments t s := by
  rcases segLT_trichotomy s t with h | h | h
  · have h1 := compareSegments_eq_neg_one_iff'.mpr h
    have h2 := compareSegments_eq_one_iff.mpr h
    omega
  · subst h
    have h1 := compareSegments_refl s
    omega
  · have h1 := compareSegments_eq_one_iff.mpr h
    have h2 := compareSegments_eq_neg_one_iff'.mpr h
    omega

theorem compareSegments_lt_trans {s t u : Segment}
    (h : compareSegments s t = -1) (h' : compareSegments t u = -1) :
    compareSegments s u = -1 := by
  rw [compareSegments_eq_neg_one_iff'] at *
  exact segLT_trans h h'

theorem compareSegments_neg_of_le_of_ne {s t : Segment}
    (h : compareSegments s t ≤ 0) (h' : compareSegments s t ≠ 0) :
    compareSegments s t = -1 := by
  rcases compareSegments_mem_range s t with h'' | h'' | h'' <;> omega

/-! Lifting the segment order to the whole-version comparison loop. -/

theorem compareSegLists_nil_left (bs : List Segment) :
    compareSegLists [] bs = compareTailRight bs := rfl

theorem compareSegLists_nil_right : ∀ as : List Segment, compareSegLists as [] = compareTailLeft as
  | [] => rfl
  | _ :: _ => rfl

/-- Uniform unfolding of the comparison loop: compare the (zero-padded) heads and, on a
tie, continue with the tails. -/
theorem compareSegLists_unfold (a b : List Segment) (h : ¬(a = [] ∧ b = [])) :
    compareSegLists a b =
      (if compareSegments (a.headD padSeg) (b.headD padSeg) = 0
       then compareSegLists a.tail b.tail
       else compareSegments (a.headD padSeg) (b.headD padSeg)) := by
  match a, b with
  | [], [] => exact absurd ⟨rfl, rfl⟩ h
  | [], b :: bs =>
    show compareTailRight (b :: bs) = _
    simp only [List.headD_nil, List.headD_cons, List.tail_nil, List.tail_cons,
      compareSegLists_nil_left]
    show (if compareSegments padSeg b ≠ 0 then compareSegments padSeg b
          else compareTailRight bs) = _
    by_cases hc : compareSegments padSeg b = 0 <;> simp [hc]
  | a :: as, [] =>
    show (if compareSegments a padSeg ≠ 0 then compareSegments a padSeg
          else compareTailLeft as) = _
    simp only [List.headD_nil, List.headD_cons, List.tail_nil, List.tail_cons,
      compareSegLists_nil_right]
    by_cases hc : compareSegments a padSeg = 0 <;> simp [hc]
  | a :: as, b :: bs =>
    show (if compareSegments a b ≠ 0 then compareSegments a b
          else compareSegLists as bs) = _
    simp only [List.headD_cons, List.tail_cons]
    by_cases hc : compareSegments a b = 0 <;> simp [hc]

theorem compareSegLists_tail_len {a b : List Segment} (n : Nat)
    (hlen : a.length + b.length ≤ n + 1) (h : ¬(a = [] ∧ b = [])) :
    a.tail.length + b.tail.length ≤ n := by
  have hta := List.length_tail a
  have htb := List.length_tail b
  have hne : a ≠ [] ∨ b ≠ [] := not_and_or.mp h
  have : a.length ≠ 0 ∨ b.length ≠ 0 := by
    rcases hne with h' | h'
    · left; exact fun h0 => h' (List.length_eq_zero.mp h0)
    · right; exact fun h0 => h' (List.length_eq_zero.mp h0)
  omega

theorem compareSegLists_swap_aux :
    ∀ n (a b : List Segment), a.length + b.length ≤ n →
      compareSegLists a b = -compareSegLists b a := by
  intro n
  induction n with
  | zero =>
    intro a b hlen
    have ha : a = [] := List.length_eq_zero.mp (by omega)
    have hb : b = [] := List.length_eq_zero.mp (by omega)
    subst ha; subst hb
    decide
  | succ n ih =>
    intro a b hlen
    by_cases hab : a = [] ∧ b = []
    · rcases hab with ⟨ha, hb⟩
      subst ha; subst hb
      decide
    · have hba : ¬(b = [] ∧ a = []) := fun hp => hab ⟨hp.2, hp.1⟩
      rw [compareSegLists_unfold a b hab, compareSegLists_unfold b a hba]
      have hs := compareSegments_swap (a.headD padSeg) (b.headD padSeg)
      by_cases hc : compareSegments (a.headD padSeg) (b.headD padSeg) = 0
      · have hc' : compareSegments (b.headD padSeg) (a.headD padSeg) = 0 := by omega
        rw [if_pos hc, if_pos hc']
        exact ih a.tail b.tail (compareSegLists_tail_len n hlen hab)
      · have hc' : ¬compareSegments (b.headD padSeg) (a.headD padSeg) = 0 := by omega
        rw [if_neg hc, if_neg hc']
        omega

theorem compareSegLists_swap (a b : List Segment) :
    compareSegLists a b = -compareSegLists b a :=
  compareSegLists_swap_aux (a.length + b.length) a b (le_refl _)

theorem compareSegLists_mem_range_aux :
    ∀ n (a b : List Segment), a.length + b.length ≤ n →
      compareSegLists a b = -1 ∨ compareSegLists a b = 0 ∨ compareSegLists a b = 1 := by
  intro n
  induction n with
  | zero =>
    intro a b hlen
    have ha : a = [] := List.length_eq_zero.mp (by omega)
    have hb : b = [] := List.length_eq_zero.mp (by omega)
    subst ha; subst hb
    decide
  | succ n ih =>
    intro a b hlen
    by_cases hab : a = [] ∧ b = []
    · rcases hab with ⟨ha, hb⟩
      subst ha; subst hb
      decide
    · rw [compareSegLists_unfold a b hab]
      by_cases hc : compareSegments (a.headD padSeg) (b.headD padSeg) = 0
      · rw [if_pos hc]
        exact ih a.tail b.tail (compareSegLists_tail_len n hlen hab)
      · rw [if_neg hc]
        exact compareSegments_mem_range _ _

theorem compareSegLists_mem_range (a b : List Segment) :
    compareSegLists a b = -1 ∨ compareSegLists a b = 0 ∨ compareSegLists a b = 1 :=
  compareSegLists_mem_range_aux (a.length + b.length) a b (le_refl _)

theorem compareSegLists_refl (a : List Segment) : compareSegLists a a = 0 := by
  induction a with
  | nil => rfl
  | cons x xs ih =>
    show (if compareSegments x x ≠ 0 then compareSegments x x else compareSegLists xs xs) = 0
    simp [compareSegments_refl, ih]

theorem compareSegLists_le_trans :
    ∀ n (a b c : List Segment), a.length + b.length + c.length ≤ n →
      compareSegLists a b ≤ 0 → compareSegLists b c ≤ 0 → compareSegLists a c ≤ 0 := by
  intro n
  induction n with
  | zero =>
    intro a b c hlen h1 h2
    have ha : a = [] := List.length_eq_zero.mp (by omega)
    have hc : c = [] := List.length_eq_zero.mp (by omega)
    subst ha; subst hc
    exact le_of_eq rfl
  | succ n ih =>
    intro a b c hlen h1 h2
    by_cases hac : a = [] ∧ c = []
    · rcases hac with ⟨ha, hc⟩
      subst ha; subst hc
      exact le_of_eq rfl
    by_cases hab : a = [] ∧ b = []
    · rcases hab with ⟨ha, hb⟩
      subst ha; subst hb
      exact h2
    by_cases hbc : b = [] ∧ c = []
    · rcases hbc with ⟨hb, hc⟩
      subst hb; subst hc
      exact h1
    rw [compareSegLists_unfold a b hab] at h1
    rw [compareSegLists_unfold b c hbc] at h2
    rw [compareSegLists_unfold a c hac]
    have hlen' : a.tail.length + b.tail.length + c.tail.length ≤ n := by
      have hta := List.length_tail a
      have htb := List.length_tail b
      have htc := List.length_tail c
      have hne : a ≠ [] ∨ c ≠ [] := not_and_or.mp hac
      have : a.length ≠ 0 ∨ c.length ≠ 0 := by
        rcases hne with h | h
        · left; exact fun h0 => h (List.length_eq_zero.mp h0)
        · right; exact fun h0 => h (List.length_eq_zero.mp h0)
      omega
    by_cases hxy : compareSegments (a.headD padSeg) (b.headD padSeg) = 0 <;>
      by_cases hyz : compareSegments (b.headD padSeg) (c.headD padSeg) = 0
    · have he1 := compareSegments_eq_zero_iff.mp hxy
      have he2 := compareSegments_eq_zero_iff.mp hyz
      rw [if_pos hxy] at h1
      rw [if_pos hyz] at h2
      rw [if_pos (by rw [he1, he2]; exact compareSegments_refl _)]
      exact ih a.tail b.tail c.tail hlen' h1 h2
    · have he1 := compareSegments_eq_zero_iff.mp hxy
      rw [if_neg hyz] at h2
      have h2' : compareSegments (b.headD padSeg) (c.headD padSeg) = -1 :=
        compareSegments_neg_of_le_of_ne h2 hyz
      have hxz : compareSegments (a.headD padSeg) (c.headD padSeg) = -1 := by
        rw [he1]; exact h2'
      rw [if_neg (by omega), hxz]
      omega
    · have he2 := compareSegments_eq_zero_iff.mp hyz
      rw [if_neg hxy] at h1
      have h1' : compareSegments (a.headD padSeg) (b.headD padSeg) = -1 :=
        compareSegments_neg_of_le_of_ne h1 hxy
      have hxz : compareSegments (a.headD padSeg) (c.headD padSeg) = -1 := by
        rw [← he2]; exact h1'
      rw [if_neg (by omega), hxz]
      omega
    · rw [if_neg hxy] at h1
      rw [if_neg hyz] at h2
      have h1' := compareSegments_neg_of_le_of_ne h1 hxy
      have h2' := compareSegments_neg_of_le_of_ne h2 hyz
      have hxz := compareSegments_lt_trans h1' h2'
      rw [if_neg (by omega), hxz]
      omega

/-! The comparator facts at the level of compareVersions. -/

theorem compareVersions_swap (a b : String) : compareVersions a b = -compareVersions b a :=
  compareSegLists_swap (parseVersion a) (parseVersion b)

theorem compareVersions_refl (a : String) : compareVersions a a = 0 :=
  compareSegLists_refl (parseVersion a)

theorem compareVersions_mem_range (a b : String) :
    compareVersions a b = -1 ∨ compareVersions a b = 0 ∨ compareVersions a b = 1 :=
  compareSegLists_mem_range (parseVersion a) (parseVersion b)

theorem compareVersions_le_trans {a b c : String}
    (h1 : compareVersions a b ≤ 0) (h2 : compareVersions b c ≤ 0) :
    compareVersions a c ≤ 0 :=
  compareSegLists_le_trans
    ((parseVersion a).length + (parseVersion b).length + (parseVersion c).length)
    (parseVersion a) (parseVersion b) (parseVersion c) (le_refl _) h1 h2

theorem compareVersions_total (a b : String) :
    compareVersions a b ≤ 0 ∨ compareVersions b a ≤ 0 := by
  have h := compareVersions_swap a b
  have h' := compareVersions_mem_range a b
  omega

/-! Right-padding with zero segments does not change a comparison. -/

theorem compareTailRight_replicate_pad : ∀ k, compareTailRight (List.replicate k padSeg) = 0
  | 0 => rfl
  | k + 1 => by
    show (if compareSegments padSeg padSeg ≠ 0 then compareSegments padSeg padSeg
          else compareTailRight (List.replicate k padSeg)) = 0
    simp [compareSegments_refl, compareTailRight_replicate_pad k]

theorem compareSegLists_pad_right : ∀ (a : List Segment) (k : Nat),
    compareSegLists a (a ++ List.replicate k padSeg) = 0
  | [], k => compareTailRight_replicate_pad k
  | x :: xs, k => by
    show (if compareSegments x x ≠ 0 then compareSegments x x
          else compareSegLists xs (xs ++ List.replicate k padSeg)) = 0
    simp [compareSegments_refl, compareSegLists_pad_right xs k]

/-! Facts about the sort relations used in buildResult. -/

instance : IsTrans CompatibleVersionEntry descR :=
  ⟨fun _ _ _ h1 h2 => compareVersions_le_trans h2 h1⟩

instance : IsTotal CompatibleVersionEntry descR :=
  ⟨fun a b => compareVersions_total b.pluginVersion a.pluginVersion⟩

instance : IsTrans CompatibleVersionEntry ascR :=
  ⟨fun _ _ _ h1 h2 => compareVersions_le_trans h1 h2⟩

instance : IsTotal CompatibleVersionEntry ascR :=
  ⟨fun a b => compareVersions_total a.pluginVersion b.pluginVersion⟩

/-- In a sorted list, every element is the last element or relates to it. -/
theorem sorted_rel_getLast {α : Type} {r : α → α → Prop} :
    ∀ (l : List α) (h : l ≠ []) (_ : l.Sorted r) (x : α), x ∈ l →
      x = l.getLast h ∨ r x (l.getLast h)
  | [a], _, _, x, hx => by
    left
    simpa using hx
  | a :: b :: t, _, hs, x, hx => by
    have hbt : (b :: t : List α) ≠ [] := List.cons_ne_nil b t
    have hgl : (a :: b :: t).getLast (List.cons_ne_nil a (b :: t)) =
        (b :: t).getLast hbt := List.getLast_cons hbt
    rcases List.mem_cons.mp hx with rfl | hx'
    · right
      rw [hgl]
      exact List.rel_of_sorted_cons hs _ (List.getLast_mem hbt)
    · rcases sorted_rel_getLast (b :: t) hbt hs.of_cons x hx' with h' | h'
      · left
        rw [hgl]
        exact h'
      · right
        rw [hgl]
        exact h'

/-- In a sorted list, every element is the head or is related to by the head. -/
theorem sorted_rel_head {α : Type} {r : α → α → Prop} {a : α} {l : List α}
    (hs : (a :: l).Sorted r) (x : α) (hx : x ∈ a :: l) : x = a ∨ r a x := by
  rcases List.mem_cons.mp hx with rfl | hx'
  · left; rfl
  · right
    exact List.rel_of_sorted_cons hs _ hx'

/-! Characterizations of buildResult's filtering loop and of the batch loop. -/

/-- Which raw records buildResult keeps: both resolved bounds truthy and the target
inside the resolved range. -/
def keepsRecord (targetDCVersion : String) (v : RawVersionRecord) : Bool :=
  truthy (resolveBounds v).1 && truthy (resolveBounds v).2 &&
    isVersionInRange (some targetDCVersion) (resolveBounds v).1 (resolveBounds v).2

/-- The entry built from a kept record. -/
def entryOf (v : RawVersionRecord) : CompatibleVersionEntry :=
  toEntry v ((resolveBounds v).1.getD "") ((resolveBounds v).2.getD "")

theorem collectCompatible_eq_filter (t : String) (l : List RawVersionRecord) :
    collectCompatible t l = (l.filter (keepsRecord t)).map entryOf := by
  induction l with
  | nil => rfl
  | cons v vs ih =>
    cases hm : truthy (resolveBounds v).1 <;> cases hM : truthy (resolveBounds v).2 <;>
      cases hr : isVersionInRange (some t) (resolveBounds v).1 (resolveBounds v).2 <;>
      simp [collectCompatible, keepsRecord, entryOf, List.filter_cons, hm, hM, hr, ih]

theorem processPlugins_eq_map (t : String)
    (fetch : PluginDescriptor → Except String FetchSuccess) (l : List PluginDescriptor) :
    processPlugins t fetch l = l.map (processOnePlugin t fetch) := by
  induction l with
  | nil => rfl
  | cons p ps ih => simp [processPlugins, ih]

/-! Projections of buildResult (transparent through its let bindings). -/

theorem buildResult_compatible (p : PluginDescriptor) (raws : List RawVersionRecord)
    (t m : String) :
    (buildResult p raws t m).compatible =
      some ((collectCompatible t raws).any
        (fun cv => compareVersions cv.pluginVersion p.currentVersion == 0)) := rfl

theorem buildResult_compatibleVersions (p : PluginDescriptor) (raws : List RawVersionRecord)
    (t m : String) :
    (buildResult p raws t m).compatibleVersions =
      List.insertionSort descR (collectCompatible t raws) := rfl

theorem buildResult_error (p : PluginDescriptor) (raws : List RawVersionRecord)
    (t m : String) : (buildResult p raws t m).error = none := rfl

theorem buildResult_recommended_none (p : PluginDescriptor) (raws : List RawVersionRecord)
    (t m : String) (h : collectCompatible t raws = []) :
    (buildResult p raws t m).recommendedVersion = none := by
  show (match (List.insertionSort descR (collectCompatible t raws)).head? with
        | some cv => some cv.pluginVersion
        | none => none) = none
  rw [h]
  rfl

theorem buildResult_range_none (p : PluginDescriptor) (raws : List RawVersionRecord)
    (t m : String) (h : collectCompatible t raws = []) :
    (buildResult p raws t m).compatibleVersionRange = none := by
  show (match (List.insertionSort ascR
          (List.insertionSort descR (collectCompatible t raws))).head?,
        (List.insertionSort ascR
          (List.insertionSort descR (collectCompatible t raws))).getLast? with
        | some hd, some l =>
          some (if hd.pluginVersion = l.pluginVersion then hd.pluginVersion
                else hd.pluginVersion ++ " - " ++ l.pluginVersion)
        | _, _ => none) = none
  rw [h]
  rfl

theorem buildResult_recommended_spec (p : PluginDescriptor) (raws : List RawVersionRecord)
    (t m : String) (h : collectCompatible t raws ≠ []) :
    ∃ v, (buildResult p raws t m).recommendedVersion = some v ∧
      (∃ cv ∈ collectCompatible t raws, cv.pluginVersion = v) ∧
      ∀ cv ∈ collectCompatible t raws, compareVersions cv.pluginVersion v ≤ 0 := by
  have hperm := List.perm_insertionSort descR (collectCompatible t raws)
  have hsorted := List.sorted_insertionSort descR (collectCompatible t raws)
  have hne : List.insertionSort descR (collectCompatible t raws) ≠ [] := by
    intro h0
    exact h (List.length_eq_zero.mp (by rw [← hperm.length_eq, h0]; rfl))
  obtain ⟨a, l, he⟩ := List.exists_cons_of_ne_nil hne
  refine ⟨a.pluginVersion, ?_, ?_, ?_⟩
  · show (match (List.insertionSort descR (collectCompatible t raws)).head? with
          | some cv => some cv.pluginVersion
          | none => none) = some a.pluginVersion
    rw [he]
    rfl
  · exact ⟨a, hperm.subset (he ▸ List.mem_cons_self a l), rfl⟩
  · intro cv hcv
    have hmem : cv ∈ List.insertionSort descR (collectCompatible t raws) :=
      hperm.symm.subset hcv
    rw [he] at hmem
    rcases sorted_rel_head (he ▸ hsorted) cv hmem with h' | h'
    · rw [h']
      exact le_of_eq (compareVersions_refl _)
    · exact h'

theorem buildResult_range_spec (p : PluginDescriptor) (raws : List RawVersionRecord)
    (t m : String) (h : collectCompatible t raws ≠ []) :
    ∃ v1 v2, (∃ cv ∈ collectCompatible t raws, cv.pluginVersion = v1) ∧
      (∃ cv ∈ collectCompatible t raws, cv.pluginVersion = v2) ∧
      (∀ cv ∈ collectCompatible t raws, compareVersions v1 cv.pluginVersion ≤ 0) ∧
      (∀ cv ∈ collectCompatible t raws, compareVersions cv.pluginVersion v2 ≤ 0) ∧
      (buildResult p raws t m).compatibleVersionRange =
        some (if v1 = v2 then v1 else v1 ++ " - " ++ v2) := by
  have hperm : (List.insertionSort ascR
      (List.insertionSort descR (collectCompatible t raws))).Perm (collectCompatible t raws) :=
    (List.perm_insertionSort ascR _).trans (List.perm_insertionSort descR _)
  have hsorted := List.sorted_insertionSort ascR
    (List.insertionSort descR (collectCompatible t raws))
  have hne : List.insertionSort ascR
      (List.insertionSort descR (collectCompatible t raws)) ≠ [] := by
    intro h0
    exact h (List.length_eq_zero.mp (by rw [← hperm.length_eq, h0]; rfl))
  obtain ⟨a, l, he⟩ := List.exists_cons_of_ne_nil hne
  rw [he] at hsorted
  have hbne : (a :: l : List CompatibleVersionEntry) ≠ [] := List.cons_ne_nil a l
  refine ⟨a.pluginVersion, ((a :: l).getLast hbne).pluginVersion, ?_, ?_, ?_, ?_, ?_⟩
  · exact ⟨a, hperm.subset (by rw [he]; exact List.mem_cons_self a l), rfl⟩
  · exact ⟨(a :: l).getLast hbne,
      hperm.subset (by rw [he]; exact List.getLast_mem hbne), rfl⟩
  · intro cv hcv
    have hmem : cv ∈ (a :: l : List CompatibleVersionEntry) := he ▸ hperm.symm.subset hcv
    rcases sorted_rel_head hsorted cv hmem with h' | h'
    · rw [h']
      exact le_of_eq (compareVersions_refl _)
    · exact h'
  · intro cv hcv
    have hmem : cv ∈ (a :: l : List CompatibleVersionEntry) := he ▸ hperm.symm.subset hcv
    rcases sorted_rel_getLast (a :: l) hbne hsorted cv hmem with h' | h'
    · rw [h']
      exact le_of_eq (compareVersions_refl _)
    · exact h'
  · show (match (List.insertionSort ascR
            (List.insertionSort descR (collectCompatible t raws))).head?,
          (List.insertionSort ascR
            (List.insertionSort descR (collectCompatible t raws))).getLast? with
          | some hd, some lst =>
            some (if hd.pluginVersion = lst.pluginVersion then hd.pluginVersion
                  else hd.pluginVersion ++ " - " ++ lst.pluginVersion)
          | _, _ => none) = _
    rw [he, List.getLast?_eq_getLast _ hbne]
    rfl

theorem buildResult_compatible_iff (p : PluginDescriptor) (raws : List RawVersionRecord)
    (t m : String) :
    ∃ b, (buildResult p raws t m).compatible = some b ∧
      (b = true ↔ ∃ cv ∈ (buildResult p raws t m).compatibleVersions,
          compareVersions cv.pluginVersion p.currentVersion = 0) := by
  refine ⟨_, buildResult_compatible p raws t m, ?_⟩
  rw [buildResult_compatibleVersions, List.any_eq_true]
  constructor
  · intro hx
    obtain ⟨cv, hm, hf⟩ := hx
    exact ⟨cv, (List.perm_insertionSort descR _).mem_iff.mpr hm, beq_iff_eq.mp hf⟩
  · intro hx
    obtain ⟨cv, hm, hf⟩ := hx
    exact ⟨cv, (List.perm_insertionSort descR _).subset hm, beq_iff_eq.mpr hf⟩

/-! The two outcomes of the per-plugin batch step. -/

theorem processOnePlugin_ok (t : String) (fetch : PluginDescriptor → Except String FetchSuccess)
    (p : PluginDescriptor) (fs : FetchSuccess) (h : fetch p = .ok fs) :
    processOnePlugin t fetch p = buildResult p fs.versions t (methodName fs.method) := by
  unfold processOnePlugin
  rw [h]

theorem processOnePlugin_error (t : String)
    (fetch : PluginDescriptor → Except String FetchSuccess)
    (p : PluginDescriptor) (e : String) (h : fetch p = .error e) :
    processOnePlugin t fetch p = failureResult p t e := by
  unfold processOnePlugin
  rw [h]

theorem processPlugins_countP (t : String)
    (fetch : PluginDescriptor → Except String FetchSuccess) (l : List PluginDescriptor) :
    (processPlugins t fetch l).countP (fun r => r.compatible.isNone) =
      l.countP (fun p => !(fetch p).isOk) := by
  rw [processPlugins_eq_map, List.countP_map]
  apply List.countP_congr
  intro p _
  simp only [Function.comp]
  cases hf : fetch p with
  | ok fs => rw [processOnePlugin_ok t fetch p fs hf, buildResult_compatible]; rfl
  | error e => rw [processOnePlugin_error t fetch p e hf]; rfl

/-! Case analysis of parseCompatibilityString over its token list. -/

theorem parseCompatibilityString_of_nil {text : String}
    (h : extractVersionTokens (jsTrim text) = []) :
    parseCompatibilityString text = ⟨none, none, jsTrim text⟩ := by
  unfold parseCompatibilityString
  by_cases he : jsTrim text = ""
  · simp [he]
  · simp [he, h]

theorem extractVersionTokens_empty : extractVersionTokens "" = [] := rfl

theorem parseCompatibilityString_of_single {text t : String}
    (h : extractVersionTokens (jsTrim text) = [t]) :
    parseCompatibilityString text = ⟨some t, some t, jsTrim text⟩ := by
  unfold parseCompatibilityString
  have he : ¬jsTrim text = "" := by
    intro he
    rw [he, extractVersionTokens_empty] at h
    exact List.noConfusion h
  simp [he, h]

theorem parseCompatibilityString_of_many {text t u : String} {rest : List String}
    (h : extractVersionTokens (jsTrim text) = t :: u :: rest) :
    parseCompatibilityString text =
      (if compareVersions t ((u :: rest).getLast (List.cons_ne_nil u rest)) > 0
       then ⟨some ((u :: rest).getLast (List.cons_ne_nil u rest)), some t, jsTrim text⟩
       else ⟨some t, some ((u :: rest).getLast (List.cons_ne_nil u rest)), jsTrim text⟩) := by
  unfold parseCompatibilityString
  have he : ¬jsTrim text = "" := by
    intro he
    rw [he, extractVersionTokens_empty] at h
    exact List.noConfusion h
  simp only [he, if_false, h]

theorem parseCompatibilityString_ordered (text : String) {mn mx : String}
    (hmn : (parseCompatibilityString text).minVersion = some mn)
    (hmx : (parseCompatibilityString text).maxVersion = some mx) :
    compareVersions mn mx ≤ 0 := by
  rcases htok : extractVersionTokens (jsTrim text) with _ | ⟨t, _ | ⟨u, rest⟩⟩
  · rw [parseCompatibilityString_of_nil htok] at hmn
    exact Option.noConfusion hmn
  · rw [parseCompatibilityString_of_single htok] at hmn hmx
    have h1 : t = mn := Option.some_inj.mp hmn
    have h2 : t = mx := Option.some_inj.mp hmx
    rw [← h1, ← h2]
    exact le_of_eq (compareVersions_refl t)
  · rw [parseCompatibilityString_of_many htok] at hmn hmx
    by_cases hc : compareVersions t ((u :: rest).getLast (List.cons_ne_nil u rest)) > 0
    · rw [if_pos hc] at hmn hmx
      have h1 : (u :: rest).getLast (List.cons_ne_nil u rest) = mn :=
        Option.some_inj.mp hmn
      have h2 : t = mx := Option.some_inj.mp hmx
      have hs := compareVersions_swap ((u :: rest).getLast (List.cons_ne_nil u rest)) t
      rw [← h1, ← h2]
      omega
    · rw [if_neg hc] at hmn hmx
      have h1 : t = mn := Option.some_inj.mp hmn
      have h2 : (u :: rest).getLast (List.cons_ne_nil u rest) = mx :=
        Option.some_inj.mp hmx
      rw [← h1, ← h2]
      omega

/-! Claim theorems. -/

/-- Claim C4: compareVersions is antisymmetric in the comparator sense
(compareVersions a b equals the negation of compareVersions b a) and defines a total
order on version strings: reflexive pairs compare to zero, the induced less-or-equal
relation is transitive, every result lies in the set of minus one, zero and one, and
every pair of strings is comparable. -/
theorem compareVersions_total_order :
    (∀ a b : String, compareVersions a b = -compareVersions b a) ∧
    (∀ a : String, compareVersions a a = 0) ∧
    (∀ a b c : String, compareVersions a b ≤ 0 → compareVersions b c ≤ 0 →
        compareVersions a c ≤ 0) ∧
    (∀ a b : String,
        compareVersions a b = -1 ∨ compareVersions a b = 0 ∨ compareVersions a b = 1) ∧
    (∀ a b : String, compareVersions a b ≤ 0 ∨ compareVersions b a ≤ 0) :=
  ⟨compareVersions_swap, compareVersions_refl,
   fun _ _ _ h1 h2 => compareVersions_le_trans h1 h2,
   compareVersions_mem_range, compareVersions_total⟩

/-- Witness for C4 at concrete version strings. -/
theorem compareVersions_total_order_check :
    compareVersions "1.2" "1.10" ≤ 0 ∧ compareVersions "1.10" "2.0" ≤ 0 ∧
      compareVersions "1.2" "2.0" ≤ 0 :=
  ⟨by decide, by decide,
   compareVersions_total_order.2.2.1 "1.2" "1.10" "2.0" (by decide) (by decide)⟩

/-- Claim C5: segment comparison orders an empty alphabetic remainder before any
non-empty remainder at equal numeric parts, compares numeric parts as numbers, and
right-padding with zero segments does not change a comparison; concretely
compareVersions "8" "8a" is negative, compareVersions "8.1" "8.10" is negative and
compareVersions "2.0.0" "2.0" is zero. -/
theorem segmentwise_comparison_spec :
    (∀ s t : Segment, s.num = t.num → s.alpha = "" → t.alpha ≠ "" →
        compareSegments s t = -1) ∧
    (∀ s t : Segment, s.num < t.num → compareSegments s t = -1) ∧
    (∀ (a : List Segment) (k : Nat), compareSegLists a (a ++ List.replicate k padSeg) = 0) ∧
    compareVersions "8" "8a" = -1 ∧ compareVersions "8.1" "8.10" = -1 ∧
    compareVersions "2.0.0" "2.0" = 0 := by
  refine ⟨?_, ?_, compareSegLists_pad_right, by decide, by decide, by decide⟩
  · intro s t hnum ha hb
    rw [compareSegments_eq_neg_one_iff]
    right
    refine ⟨hnum, ?_⟩
    rw [ha]
    exact empty_string_lt hb
  · intro s t hlt
    rw [compareSegments_eq_neg_one_iff]
    left
    exact hlt

/-- Witness for C5 at concrete segments. -/
theorem segmentwise_comparison_spec_check :
    compareSegments ⟨8, ""⟩ ⟨8, "a"⟩ = -1 ∧ compareSegments ⟨1, "x"⟩ ⟨2, ""⟩ = -1 :=
  ⟨segmentwise_comparison_spec.1 ⟨8, ""⟩ ⟨8, "a"⟩ rfl rfl (by decide),
   segmentwise_comparison_spec.2.1 ⟨1, "x"⟩ ⟨2, ""⟩ (by decide)⟩

/-- Claim C6: parseCompatibilityString returns a null pair when no dotted version token
occurs in the text, min equal to max for a single token, and first/last token with a
safety swap otherwise, so that a returned pair is always ordered by the comparator;
concretely on the three texts from the specification. -/
theorem parseCompatibilityString_spec :
    (∀ text : String, extractVersionTokens (jsTrim text) = [] →
        parseCompatibilityString text = ⟨none, none, jsTrim text⟩) ∧
    (∀ text t : String, extractVersionTokens (jsTrim text) = [t] →
        parseCompatibilityString text = ⟨some t, some t, jsTrim text⟩) ∧
    (∀ (text t u : String) (rest : List String),
        extractVersionTokens (jsTrim text) = t :: u :: rest →
        parseCompatibilityString text =
          (if compareVersions t ((u :: rest).getLast (List.cons_ne_nil u rest)) > 0
           then ⟨some ((u :: rest).getLast (List.cons_ne_nil u rest)), some t, jsTrim text⟩
           else ⟨some t, some ((u :: rest).getLast (List.cons_ne_nil u rest)),
                 jsTrim text⟩)) ∧
    (∀ (text : String) (mn mx : String),
        (parseCompatibilityString text).minVersion = some mn →
        (parseCompatibilityString text).maxVersion = some mx →
        compareVersions mn mx ≤ 0) ∧
    parseCompatibilityString "Confluence Data Center 8.0 - 9.0" =
      ⟨some "8.0", some "9.0", "Confluence Data Center 8.0 - 9.0"⟩ ∧
    parseCompatibilityString "9.0 - 8.0" = ⟨some "8.0", some "9.0", "9.0 - 8.0"⟩ ∧
    parseCompatibilityString "no version info" = ⟨none, none, "no version info"⟩ :=
  ⟨fun _ h => parseCompatibilityString_of_nil h,
   fun _ _ h => parseCompatibilityString_of_single h,
   fun _ _ _ _ h => parseCompatibilityString_of_many h,
   fun text _ _ hmn hmx => parseCompatibilityString_ordered text hmn hmx,
   by decide, by decide, by decide⟩

/-- Witness for C6 at concrete texts. -/
theorem parseCompatibilityString_spec_check :
    parseCompatibilityString "needs 2.1" = ⟨some "2.1", some "2.1", "needs 2.1"⟩ ∧
      compareVersions "8.0" "9.0" ≤ 0 :=
  ⟨parseCompatibilityString_spec.2.1 "needs 2.1" "2.1" (by decide),
   parseCompatibilityString_spec.2.2.2.1 "Confluence Data Center 8.0 - 9.0" "8.0" "9.0"
     (by decide) (by decide)⟩

/-! Query-mark counting helpers for the URL normalization claim. -/

theorem beforeQuery_count (s : String) : (beforeQuery s).data.count '?' = 0 := by
  apply List.count_eq_zero.mpr
  intro hmem
  have h := List.mem_takeWhile_imp hmem
  simp at h

theorem dropTrailingSlash_count (s : String) :
    (dropTrailingSlash s).data.count '?' = s.data.count '?' := by
  unfold dropTrailingSlash
  by_cases h : s.data.getLast? = some '/'
  · rw [if_pos h]
    have hne : s.data ≠ [] := by
      intro h0
      rw [h0] at h
      exact Option.noConfusion h
    have hlast : s.data.getLast hne = '/' := by
      have h2 := List.getLast?_eq_getLast s.data hne
      rw [h2] at h
      exact Option.some_inj.mp h
    conv_rhs => rw [← List.dropLast_append_getLast hne]
    rw [List.count_append, hlast]
    simp
  · rw [if_neg h]

/-- The URL normalization described by claim C9, written from the specification's words:
strip any existing query string, then strip a trailing slash and append the
version-history segment when that segment is not already present, then append the
stable hosting query parameter. -/
def claimedNormalizeUrl (rawUrl : String) : String :=
  let r := jsTrim rawUrl
  let q := beforeQuery r
  let base := if strIncludes q "/version-history" then q
              else dropTrailingSlash q ++ "/version-history"
  base ++ "?versionHistoryHosting=dataCenter"

/-- Claim C9 counterexample: for a marketplace URL carrying a query string but no
version-history segment, normalizeVersionHistoryUrl keeps the query string (the claimed
unconditional stripping does not happen), so it differs from the spec-described
normalization. -/
theorem normalizeVersionHistoryUrl_counterexample :
    normalizeVersionHistoryUrl "https://m.io/apps/1/x?tab=1" ≠
        claimedNormalizeUrl "https://m.io/apps/1/x?tab=1" ∧
      strIncludes (normalizeVersionHistoryUrl "https://m.io/apps/1/x?tab=1") "tab=1" = true ∧
      normalizeVersionHistoryUrl "https://m.io/apps/1/x?tab=1" =
        "https://m.io/apps/1/x?tab=1/version-history?versionHistoryHosting=dataCenter" := by
  refine ⟨?_, by decide, by decide⟩
  decide

/-- Claim C9 (amended): the stable hosting parameter is always appended; the existing
query string is stripped only when the URL already contains the version-history segment
(the result then holds exactly one question mark); otherwise one trailing slash is
stripped, the version-history segment is appended and any existing query string is left
in place (the result holds one more question mark than the trimmed input). -/
theorem normalizeVersionHistoryUrl_spec : ∀ rawUrl : String,
    (strIncludes (jsTrim rawUrl) "/version-history" = true →
       normalizeVersionHistoryUrl rawUrl =
         beforeQuery (jsTrim rawUrl) ++ "?versionHistoryHosting=dataCenter" ∧
       (normalizeVersionHistoryUrl rawUrl).data.count '?' = 1) ∧
    (strIncludes (jsTrim rawUrl) "/version-history" = false →
       normalizeVersionHistoryUrl rawUrl =
         dropTrailingSlash (jsTrim rawUrl) ++
           "/version-history?versionHistoryHosting=dataCenter" ∧
       (normalizeVersionHistoryUrl rawUrl).data.count '?' =
         (jsTrim rawUrl).data.count '?' + 1) := by
  intro rawUrl
  constructor
  · intro h
    have hrw : normalizeVersionHistoryUrl rawUrl =
        beforeQuery (jsTrim rawUrl) ++ "?versionHistoryHosting=dataCenter" := by
      unfold normalizeVersionHistoryUrl
      simp only [h, if_true]
    refine ⟨hrw, ?_⟩
    rw [hrw, String.data_append, List.count_append, beforeQuery_count]
    decide
  · intro h
    have hrw : normalizeVersionHistoryUrl rawUrl =
        (dropTrailingSlash (jsTrim rawUrl) ++ "/version-history") ++
          "?versionHistoryHosting=dataCenter" := by
      unfold normalizeVersionHistoryUrl
      simp only [h, Bool.false_eq_true, if_false]
    constructor
    · rw [hrw, String.append_assoc]
      congr 1
    · rw [hrw, String.data_append, String.data_append, List.count_append,
        List.count_append, dropTrailingSlash_count]
      have h1 : List.count '?' "/version-history".data = 0 := by decide
      have h2 : List.count '?' "?versionHistoryHosting=dataCenter".data = 1 := by decide
      omega

/-- Witness for the amended C9 at a concrete URL in each branch. -/
theorem normalizeVersionHistoryUrl_spec_check :
    normalizeVersionHistoryUrl "https://m.io/apps/1/x/version-history?a=1" =
        beforeQuery (jsTrim "https://m.io/apps/1/x/version-history?a=1") ++
          "?versionHistoryHosting=dataCenter" ∧
      normalizeVersionHistoryUrl "https://m.io/apps/1/x/" =
        dropTrailingSlash (jsTrim "https://m.io/apps/1/x/") ++
          "/version-history?versionHistoryHosting=dataCenter" :=
  ⟨((normalizeVersionHistoryUrl_spec "https://m.io/apps/1/x/version-history?a=1").1
      (by decide)).1,
   ((normalizeVersionHistoryUrl_spec "https://m.io/apps/1/x/").2 (by decide)).1⟩

/-- Claim C10: an id returned by extractAddonIdentifiers is always a nonempty all-digit
string, and whenever the id is null the slug is null too — even for a URL whose apps
segment is followed by a non-numeric part and a plausible slug. -/
theorem addonIdentifiersFromParts_id_digits {parts : List String} {s : String}
    (h : (addonIdentifiersFromParts parts).id = some s) : isAllDigits s = true := by
  unfold addonIdentifiersFromParts at h
  split at h
  · exact Option.noConfusion h
  · split at h
    · exact Option.noConfusion h
    · split at h
      · rename_i hdig
        rw [← Option.some_inj.mp h]
        exact hdig
      · exact Option.noConfusion h

theorem addonIdentifiersFromParts_slug_none (parts : List String)
    (h : (addonIdentifiersFromParts parts).id = none) :
    (addonIdentifiersFromParts parts).slug = none := by
  unfold addonIdentifiersFromParts at h ⊢
  cases hidx : jsIndexOf "apps" parts with
  | none => simp [hidx]
  | some appsIdx =>
    simp only [hidx] at h ⊢
    cases hg : parts.get? (appsIdx + 1) with
    | none => simp [hg]
    | some id =>
      simp only [hg] at h ⊢
      by_cases hdig : isAllDigits id = true
      · rw [if_pos hdig] at h
        exact Option.noConfusion h
      · rw [if_neg hdig]

theorem extractAddonIdentifiers_id_invariants :
    (∀ (pathname : Option String) (s : String),
        (extractAddonIdentifiers pathname).id = some s → isAllDigits s = true) ∧
    (∀ pathname : Option String, (extractAddonIdentifiers pathname).id = none →
        (extractAddonIdentifiers pathname).slug = none) ∧
    extractAddonIdentifiers (some "/apps/foo/scriptrunner") = ⟨none, none⟩ := by
  refine ⟨?_, ?_, by decide⟩
  · intro pathname s h
    cases pathname with
    | none => exact Option.noConfusion h
    | some p => exact addonIdentifiersFromParts_id_digits h
  · intro pathname h
    cases pathname with
    | none => rfl
    | some p => exact addonIdentifiersFromParts_slug_none _ h

/-- Witness for C10 at a concrete pathname. -/
theorem extractAddonIdentifiers_id_invariants_check : isAllDigits "1215215" = true :=
  extractAddonIdentifiers_id_invariants.1 (some "/apps/1215215/scriptrunner") "1215215"
    (by decide)

/-! The orchestrator claim. -/

theorem fetchAllVersions_attempts (ids : Identifiers)
    (m1 m2 m3 : Except String (List RawVersionRecord)) :
    (fetchAllVersions ids m1 m2 m3).2 = [FetchMethod.initialState] ∨
    (fetchAllVersions ids m1 m2 m3).2 = [FetchMethod.initialState, .restApi] ∨
    (fetchAllVersions ids m1 m2 m3).2 =
      [FetchMethod.initialState, .restApi, .puppeteer] ∨
    (fetchAllVersions ids m1 m2 m3).2 = [FetchMethod.initialState, .puppeteer] := by
  unfold fetchAllVersions
  rcases m1 with e1 | vs1
  · by_cases hid : (truthy ids.id || truthy ids.slug) = true
    · simp only [hid, if_true]
      rcases m2 with e2 | vs2
      · rcases m3 with e3 | vs3 <;> simp
      · simp
    · simp only [hid, Bool.false_eq_true, if_false]
      rcases m3 with e3 | vs3 <;> simp
  · simp

/-- Claim C3: the orchestrator attempts the three acquisition methods strictly in the
order initial-state, REST API, browser; the first successful method wins outright and
later methods are not attempted; the REST method is skipped when neither id nor slug
was resolved; when every attempted method fails the orchestrator fails with the
combined error built from each method's tagged failure; and a client can only succeed
with at least one record. -/
theorem fetchAllVersions_priority :
    ∀ (ids : Identifiers) (m1 m2 m3 : Except String (List RawVersionRecord)),
      (fetchAllVersions ids m1 m2 m3).2.Sublist
        [FetchMethod.initialState, FetchMethod.restApi, FetchMethod.puppeteer] ∧
      ((fetchAllVersions ids m1 m2 m3).2).head? = some FetchMethod.initialState ∧
      (∀ vs, m1 = .ok vs →
          fetchAllVersions ids m1 m2 m3 =
            (.ok ⟨vs, .initialState⟩, [FetchMethod.initialState])) ∧
      ((truthy ids.id || truthy ids.slug) = false →
          FetchMethod.restApi ∉ (fetchAllVersions ids m1 m2 m3).2) ∧
      (∀ e1 vs, m1 = .error e1 → (truthy ids.id || truthy ids.slug) = true →
          m2 = .ok vs →
          fetchAllVersions ids m1 m2 m3 =
            (.ok ⟨vs, .restApi⟩, [FetchMethod.initialState, .restApi])) ∧
      (∀ e1 e2 vs, m1 = .error e1 → (truthy ids.id || truthy ids.slug) = true →
          m2 = .error e2 → m3 = .ok vs →
          fetchAllVersions ids m1 m2 m3 =
            (.ok ⟨vs, .puppeteer⟩, [FetchMethod.initialState, .restApi, .puppeteer])) ∧
      (∀ e1 vs, m1 = .error e1 → (truthy ids.id || truthy ids.slug) = false →
          m3 = .ok vs →
          fetchAllVersions ids m1 m2 m3 =
            (.ok ⟨vs, .puppeteer⟩, [FetchMethod.initialState, .puppeteer])) ∧
      (∀ e1 e2 e3, m1 = .error e1 → (truthy ids.id || truthy ids.slug) = true →
          m2 = .error e2 → m3 = .error e3 →
          (fetchAllVersions ids m1 m2 m3).1 =
            .error (combineErrors
              ["initial-state: " ++ e1, "rest-api: " ++ e2, "puppeteer: " ++ e3])) ∧
      (∀ e1 e3, m1 = .error e1 → (truthy ids.id || truthy ids.slug) = false →
          m3 = .error e3 →
          (fetchAllVersions ids m1 m2 m3).1 =
            .error (combineErrors ["initial-state: " ++ e1, "puppeteer: " ++ e3])) ∧
      (∀ (msg : String) (ext : Except String (List RawVersionRecord))
          (vs : List RawVersionRecord), clientOutcome msg ext = .ok vs → vs ≠ []) := by
  intro ids m1 m2 m3
  refine ⟨?_, ?_, ?_, ?_, ?_, ?_, ?_, ?_, ?_, ?_⟩
  · rcases fetchAllVersions_attempts ids m1 m2 m3 with h | h | h | h <;> rw [h] <;> decide
  · rcases fetchAllVersions_attempts ids m1 m2 m3 with h | h | h | h <;> rw [h] <;> rfl
  · intro vs h1
    subst h1
    rfl
  · intro hid
    unfold fetchAllVersions
    rcases m1 with e1 | vs1
    · simp only [hid, Bool.false_eq_true, if_false]
      rcases m3 with e3 | vs3 <;> simp
    · simp
  · intro e1 vs h1 hid h2
    subst h1
    subst h2
    unfold fetchAllVersions
    simp [hid]
  · intro e1 e2 vs h1 hid h2 h3
    subst h1
    subst h2
    subst h3
    unfold fetchAllVersions
    simp [hid]
  · intro e1 vs h1 hid h3
    subst h1
    subst h3
    unfold fetchAllVersions
    simp [hid]
  · intro e1 e2 e3 h1 hid h2 h3
    subst h1
    subst h2
    subst h3
    unfold fetchAllVersions
    simp [hid]
  · intro e1 e3 h1 hid h3
    subst h1
    subst h3
    unfold fetchAllVersions
    simp [hid]
  · intro msg ext vs h
    unfold clientOutcome at h
    rcases ext with e | l
    · exact Except.noConfusion h
    · have h' : (if l.isEmpty = true
            then (Except.error msg : Except String (List RawVersionRecord))
            else Except.ok l) = Except.ok vs := h
      by_cases he : l.isEmpty = true
      · rw [if_pos he] at h'
        exact Except.noConfusion h'
      · rw [if_neg he] at h'
        intro h0
        apply he
        have hl : l = vs := by
          injection h'
        rw [hl, h0]
        rfl

/-- Witness for C3 at concrete tier outcomes. -/
theorem fetchAllVersions_priority_check :
    fetchAllVersions ⟨none, none⟩ (Except.error "initial-state script tag not found")
        (Except.error "No ID or slug found")
        (Except.ok [⟨"1.0", none, none, none, some "1.0", some "9.0"⟩]) =
      (Except.ok ⟨[⟨"1.0", none, none, none, some "1.0", some "9.0"⟩], .puppeteer⟩,
       [FetchMethod.initialState, .puppeteer]) :=
  (fetchAllVersions_priority ⟨none, none⟩ (Except.error "initial-state script tag not found")
      (Except.error "No ID or slug found")
      (Except.ok [⟨"1.0", none, none, none, some "1.0", some "9.0"⟩])).2.2.2.2.2.2.1
    "initial-state script tag not found"
    [⟨"1.0", none, none, none, some "1.0", some "9.0"⟩] rfl (by decide) rfl

/-! The batch claims. -/

theorem processOnePlugin_names (t : String)
    (fetch : PluginDescriptor → Except String FetchSuccess) (p : PluginDescriptor) :
    (processOnePlugin t fetch p).pluginName = p.name ∧
    (processOnePlugin t fetch p).currentVersion = p.currentVersion := by
  unfold processOnePlugin
  rcases fetch p with e | fs <;> exact ⟨rfl, rfl⟩

theorem processPlugins_getElem (t : String)
    (fetch : PluginDescriptor → Except String FetchSuccess)
    (plugins : List PluginDescriptor) (i : Nat) (p : PluginDescriptor)
    (hp : plugins[i]? = some p) :
    (processPlugins t fetch plugins)[i]? = some (processOnePlugin t fetch p) := by
  rw [processPlugins_eq_map, List.getElem?_map, hp]
  rfl

/-- Claim C1: in a batch result the compatible field of a plugin's entry is null exactly
when that plugin's acquisition failed entirely; when acquisition succeeded it is the
boolean that is true iff some entry of compatibleVersions has a pluginVersion comparing
equal to the plugin's currentVersion under compareVersions. -/
theorem compatible_field_spec :
    ∀ (plugins : List PluginDescriptor) (target : String)
      (fetch : PluginDescriptor → Except String FetchSuccess) (i : Nat)
      (p : PluginDescriptor), plugins[i]? = some p →
      ∃ r, ((checkCompatibility plugins target fetch).1)[i]? = some r ∧
        (∀ e, fetch p = .error e → r.compatible = none) ∧
        (∀ fs, fetch p = .ok fs → ∃ b, r.compatible = some b ∧
            (b = true ↔ ∃ cv ∈ r.compatibleVersions,
                compareVersions cv.pluginVersion p.currentVersion = 0)) := by
  intro plugins target fetch i p hp
  refine ⟨processOnePlugin target fetch p, processPlugins_getElem target fetch plugins i p hp,
    ?_, ?_⟩
  · intro e he
    rw [processOnePlugin_error target fetch p e he]
    rfl
  · intro fs hfs
    rw [processOnePlugin_ok target fetch p fs hfs]
    exact buildResult_compatible_iff p fs.versions target (methodName fs.method)

/-- Witness for C1 at a one-plugin batch whose acquisition fails. -/
theorem compatible_field_spec_check :
    ∃ r, ((checkCompatibility [⟨"p", "u", "1.0"⟩] "8.5"
            (fun _ => Except.error "boom")).1)[0]? = some r ∧
      (∀ e, (fun (_ : PluginDescriptor) =>
          (Except.error "boom" : Except String FetchSuccess)) ⟨"p", "u", "1.0"⟩ =
            .error e → r.compatible = none) ∧
      (∀ fs, (fun (_ : PluginDescriptor) =>
          (Except.error "boom" : Except String FetchSuccess)) ⟨"p", "u", "1.0"⟩ =
            .ok fs → ∃ b, r.compatible = some b ∧
          (b = true ↔ ∃ cv ∈ r.compatibleVersions,
              compareVersions cv.pluginVersion (⟨"p", "u", "1.0"⟩ :
                PluginDescriptor).currentVersion = 0)) :=
  compatible_field_spec [⟨"p", "u", "1.0"⟩] "8.5" (fun _ => Except.error "boom") 0
    ⟨"p", "u", "1.0"⟩ rfl

/-- Claim C7: the batch produces exactly one result per plugin, in input order; a plugin
that exhausts all tiers yields an entry with null compatible, empty compatibleVersions
and the error string, without stopping the remaining plugins; and the number of entries
with null compatible equals the number of plugins whose acquisition failed, so exactly
one exhausted plugin yields exactly one null entry. -/
theorem batch_results_spec :
    ∀ (plugins : List PluginDescriptor) (target : String)
      (fetch : PluginDescriptor → Except String FetchSuccess),
      ((checkCompatibility plugins target fetch).1).length = plugins.length ∧
      (∀ (i : Nat) (p : PluginDescriptor), plugins[i]? = some p →
          ∃ r : PluginResult, ((checkCompatibility plugins target fetch).1)[i]? = some r ∧
            r.pluginName = p.name ∧ r.currentVersion = p.currentVersion ∧
            (∀ e, fetch p = .error e →
                r.compatible = none ∧ r.compatibleVersions = [] ∧ r.error = some e)) ∧
      ((checkCompatibility plugins target fetch).1).countP
          (fun r => r.compatible.isNone) =
        plugins.countP (fun p => !(fetch p).isOk) := by
  intro plugins target fetch
  refine ⟨?_, ?_, processPlugins_countP target fetch plugins⟩
  · show (processPlugins target fetch plugins).length = _
    rw [processPlugins_eq_map, List.length_map]
  · intro i p hp
    refine ⟨processOnePlugin target fetch p, processPlugins_getElem target fetch plugins i p hp,
      (processOnePlugin_names target fetch p).1, (processOnePlugin_names target fetch p).2,
      ?_⟩
    intro e he
    rw [processOnePlugin_error target fetch p e he]
    exact ⟨rfl, rfl, rfl⟩

/-- Witness for C7 on a two-plugin batch where exactly the second plugin fails. -/
theorem batch_results_spec_check :
    ∃ r : PluginResult, ((checkCompatibility [⟨"a", "ua", "1.0"⟩, ⟨"b", "ub", "2.0"⟩] "8.5"
            (fun p => if p.name = "b" then Except.error "All methods failed"
                      else Except.ok ⟨[⟨"3.0", none, none, none, some "8.0",
                        some "9.0"⟩], FetchMethod.initialState⟩)).1)[1]? = some r ∧
      r.pluginName = "b" ∧ r.currentVersion = "2.0" ∧
      (∀ e, (fun (p : PluginDescriptor) =>
          if p.name = "b" then (Except.error "All methods failed" : Except String FetchSuccess)
          else Except.ok ⟨[⟨"3.0", none, none, none, some "8.0", some "9.0"⟩],
            FetchMethod.initialState⟩) ⟨"b", "ub", "2.0"⟩ = .error e →
        r.compatible = none ∧ r.compatibleVersions = [] ∧ r.error = some e) := by
  obtain ⟨r, h1, h2, h3, h4⟩ :=
    (batch_results_spec [⟨"a", "ua", "1.0"⟩, ⟨"b", "ub", "2.0"⟩] "8.5"
      (fun p => if p.name = "b" then Except.error "All methods failed"
                else Except.ok ⟨[⟨"3.0", none, none, none, some "8.0", some "9.0"⟩],
                  FetchMethod.initialState⟩)).2.1 1 ⟨"b", "ub", "2.0"⟩ rfl
  exact ⟨r, h1, h2, h3, h4⟩

/-- Claim C8 counterexample: checkCompatibility performs no input validation itself:
with an empty plugin list it still launches the browser (the first batch event) and
returns a normal, empty result list instead of a batch-level rejection, and with an
empty target version it still runs acquisition and result construction, producing an
ordinary entry with compatible false. -/
theorem checkCompatibility_no_validation :
    (checkCompatibility [] "8.5" (fun _ => Except.error "unused")).2.head? =
        some BatchEvent.launchBrowser ∧
      (checkCompatibility [] "8.5" (fun _ => Except.error "unused")).1 = [] ∧
      ((checkCompatibility [⟨"p", "u", "1.0"⟩] ""
          (fun _ => Except.ok ⟨[⟨"1.0", none, none, none, some "1.0", some "9.0"⟩],
            FetchMethod.initialState⟩)).1.map (fun r => r.compatible)) = [some false] := by
  refine ⟨rfl, rfl, ?_⟩
  decide

/-- Claim C8 (amended): the input validation sits in the HTTP route in front of
checkCompatibility: a missing product type or target version, or an empty plugin list,
is rejected there before checkCompatibility is invoked (so before any browser or
network activity), while checkCompatibility itself launches the browser unconditionally
as its first observable action. -/
theorem route_validation_spec :
    ∀ (ptype target : String) (plugins : List PluginDescriptor)
      (fetch : PluginDescriptor → Except String FetchSuccess),
      (target = "" → checkCompatibilityRoute ptype target plugins fetch =
          .error "type and targetDCVersion are required.") ∧
      (ptype ≠ "" → target ≠ "" → plugins = [] →
          checkCompatibilityRoute ptype target plugins fetch =
            .error "No plugins found for this product type.") ∧
      (∀ res, checkCompatibilityRoute ptype target plugins fetch = .ok res →
          ptype ≠ "" ∧ target ≠ "" ∧ plugins ≠ []) ∧
      (checkCompatibility plugins target fetch).2.head? =
        some BatchEvent.launchBrowser := by
  intro ptype target plugins fetch
  refine ⟨?_, ?_, ?_, rfl⟩
  · intro h
    subst h
    unfold checkCompatibilityRoute
    simp
  · intro hp ht hl
    subst hl
    unfold checkCompatibilityRoute
    simp [hp, ht]
  · intro res h
    unfold checkCompatibilityRoute at h
    by_cases hc : (ptype = "" || target = "") = true
    · rw [if_pos hc] at h
      exact Except.noConfusion h
    · rw [if_neg hc] at h
      simp only [Bool.or_eq_true, decide_eq_true_eq] at hc
      push_neg at hc
      by_cases hl : plugins.length = 0
      · rw [if_pos hl] at h
        exact Except.noConfusion h
      · rw [if_neg hl] at h
        exact ⟨hc.1, hc.2, fun h0 => hl (by rw [h0]; rfl)⟩

/-- Witness for the amended C8 at concrete inputs. -/
theorem route_validation_spec_check :
    checkCompatibilityRoute "confluence" "" [⟨"p", "u", "1.0"⟩]
        (fun _ => Except.error "unused") =
      .error "type and targetDCVersion are required." ∧
    checkCompatibilityRoute "confluence" "8.5" []
        (fun _ => Except.error "unused") =
      .error "No plugins found for this product type." :=
  ⟨(route_validation_spec "confluence" "" [⟨"p", "u", "1.0"⟩]
      (fun _ => Except.error "unused")).1 rfl,
   (route_validation_spec "confluence" "8.5" []
      (fun _ => Except.error "unused")).2.1 (by decide) (by decide) rfl⟩

/-- Claim C2: buildResult keeps exactly the raw records whose possibly re-parsed bounds
both resolve and put the target in range; recommendedVersion is the version of a
version-maximal kept entry (null when none is kept); compatibleVersionRange spans the
version-minimal to the version-maximal kept entry, collapsing to a single version when
they coincide and to null when nothing is kept; and on the specification's three-record
example with target 8.5 the result recommends 3.0 with range 2.0 - 3.0 and compatible
false for current version 1.0. -/
theorem buildResult_spec :
    (∀ (plugin : PluginDescriptor) (raws : List RawVersionRecord) (target method : String),
       ((buildResult plugin raws target method).compatibleVersions).Perm
          ((raws.filter (keepsRecord target)).map entryOf) ∧
       (collectCompatible target raws = [] →
           (buildResult plugin raws target method).recommendedVersion = none ∧
           (buildResult plugin raws target method).compatibleVersionRange = none) ∧
       (collectCompatible target raws ≠ [] →
           (∃ v, (buildResult plugin raws target method).recommendedVersion = some v ∧
             (∃ cv ∈ collectCompatible target raws, cv.pluginVersion = v) ∧
             ∀ cv ∈ collectCompatible target raws,
               compareVersions cv.pluginVersion v ≤ 0) ∧
           (∃ v1 v2, (∃ cv ∈ collectCompatible target raws, cv.pluginVersion = v1) ∧
             (∃ cv ∈ collectCompatible target raws, cv.pluginVersion = v2) ∧
             (∀ cv ∈ collectCompatible target raws,
                 compareVersions v1 cv.pluginVersion ≤ 0) ∧
             (∀ cv ∈ collectCompatible target raws,
                 compareVersions cv.pluginVersion v2 ≤ 0) ∧
             (buildResult plugin raws target method).compatibleVersionRange =
               some (if v1 = v2 then v1 else v1 ++ " - " ++ v2)))) ∧
    (buildResult ⟨"p", "u", "1.0"⟩
        [⟨"1.0", none, none, none, some "1.0", some "7.0"⟩,
         ⟨"2.0", none, none, none, some "6.0", some "9.0"⟩,
         ⟨"3.0", none, none, none, some "8.0", some "9.0"⟩] "8.5"
        "initial-state").recommendedVersion = some "3.0" ∧
    (buildResult ⟨"p", "u", "1.0"⟩
        [⟨"1.0", none, none, none, some "1.0", some "7.0"⟩,
         ⟨"2.0", none, none, none, some "6.0", some "9.0"⟩,
         ⟨"3.0", none, none, none, some "8.0", some "9.0"⟩] "8.5"
        "initial-state").compatibleVersionRange = some "2.0 - 3.0" ∧
    (buildResult ⟨"p", "u", "1.0"⟩
        [⟨"1.0", none, none, none, some "1.0", some "7.0"⟩,
         ⟨"2.0", none, none, none, some "6.0", some "9.0"⟩,
         ⟨"3.0", none, none, none, some "8.0", some "9.0"⟩] "8.5"
        "initial-state").compatible = some false := by
  refine ⟨?_, by decide, by decide, by decide⟩
  intro plugin raws target method
  refine ⟨?_, ?_, ?_⟩
  · rw [buildResult_compatibleVersions, ← collectCompatible_eq_filter]
    exact List.perm_insertionSort descR _
  · intro h
    exact ⟨buildResult_recommended_none plugin raws target method h,
      buildResult_range_none plugin raws target method h⟩
  · intro h
    exact ⟨buildResult_recommended_spec plugin raws target method h,
      buildResult_range_spec plugin raws target method h⟩

/-- Witness for C2: the maximal-element property instantiated on the concrete
three-record example. -/
theorem buildResult_spec_check :
    ∃ v, (buildResult ⟨"p", "u", "1.0"⟩
        [⟨"1.0", none, none, none, some "1.0", some "7.0"⟩,
         ⟨"2.0", none, none, none, some "6.0", some "9.0"⟩,
         ⟨"3.0", none, none, none, some "8.0", some "9.0"⟩] "8.5"
        "initial-state").recommendedVersion = some v ∧
      (∃ cv ∈ collectCompatible "8.5"
          [⟨"1.0", none, none, none, some "1.0", some "7.0"⟩,
           ⟨"2.0", none, none, none, some "6.0", some "9.0"⟩,
           ⟨"3.0", none, none, none, some "8.0", some "9.0"⟩], cv.pluginVersion = v) ∧
      ∀ cv ∈ collectCompatible "8.5"
          [⟨"1.0", none, none, none, some "1.0", some "7.0"⟩,
           ⟨"2.0", none, none, none, some "6.0", some "9.0"⟩,
           ⟨"3.0", none, none, none, some "8.0", some "9.0"⟩],
        compareVersions cv.pluginVersion v ≤ 0 :=
  ((buildResult_spec.1 ⟨"p", "u", "1.0"⟩
      [⟨"1.0", none, none, none, some "1.0", some "7.0"⟩,
       ⟨"2.0", none, none, none, some "6.0", some "9.0"⟩,
       ⟨"3.0", none, none, none, some "8.0", some "9.0"⟩] "8.5"
      "initial-state").2.2 (by decide)).1

end Scraper
